import Mathlib

/-!
Verification of the behavioural contract of the local-LLM adapter
(`src/local_llm/transformers_llm.py`) and the dependency installer
(`setup_local_llm.py`).

Strings are modelled as `List Char`.  Python's `str.strip()` is modelled with
`Char.isWhitespace` (ASCII whitespace), `in` (substring test) via the first
occurrence index `firstOcc`, `str.startswith` via `<+:`, and
`s.split(tok)[0]` via `splitHead`.  Floating-point generation parameters are
modelled as rationals.  The external ML library (model loading, the sampling
call) and the package manager are modelled as oracles supplied to the
embedded control flow.
-/

/-- Index of the first occurrence of `pat` in `s` (Python `s.find(pat)` when
non-negative; `none` when `pat not in s`). -/
def firstOcc (pat : List Char) : List Char → Option Nat
  | [] => if pat <+: ([] : List Char) then some 0 else none
  | c :: rest =>
      if pat <+: c :: rest then some 0
      else (firstOcc pat rest).map (fun i => i + 1)

/-- Python `s.split(pat)[0]`: the part of `s` before the first occurrence of
`pat`, or all of `s` when `pat` does not occur. -/
def splitHead (s pat : List Char) : List Char :=
  match firstOcc pat s with
  | some i => s.take i
  | none => s

/-- The action of `splitHead` on the length of a prefix of a fixed text `T`:
if the current string is `T.take k`, the string after splitting at `pat` is
`T.take (stepK T k pat)`. -/
def stepK (T : List Char) (k : Nat) (pat : List Char) : Nat :=
  match firstOcc pat T with
  | some i => if i + pat.length ≤ k then i else k
  | none => k

/-- Python `s.strip()`: remove trailing then leading whitespace. -/
def stripChars (l : List Char) : List Char :=
  (l.rdropWhile Char.isWhitespace).dropWhile Char.isWhitespace

/-- Python `pat in s` (substring containment). -/
def containsSub (pat s : List Char) : Bool :=
  (firstOcc pat s).isSome

/-- Minimum of two optional positions, treating `none` as absent. -/
def minOpt : Option Nat → Option Nat → Option Nat
  | none, b => b
  | some a, none => some a
  | some a, some b => some (min a b)

/-- Stop token `"\nUser:"`. -/
def tokUser : List Char := "\nUser:".toList

/-- Stop token `"\nQuestion:"`. -/
def tokQuestion : List Char := "\nQuestion:".toList

/-- Stop token `"\n\n"`. -/
def tokBlank : List Char := "\n\n".toList

/-- Stop token `"<|user|>"`. -/
def tokPipeUser : List Char := "<|user|>".toList

/-- Stop token `"<|endoftext|>"`. -/
def tokEnd : List Char := "<|endoftext|>".toList

/-- The `stop_tokens` list of `_clean_response`, in source order. -/
def stopTokens : List (List Char) := [tokUser, tokQuestion, tokBlank, tokPipeUser, tokEnd]

/-- Position of the earliest occurrence of any stop token in `s`
(the spec's "whichever occurs earliest in the string"). -/
def earliestStop (s : List Char) : Option Nat :=
  (stopTokens.map (fun pat => firstOcc pat s)).foldr minOpt none

/-- Truncate `s` at the earliest-occurring stop token, if any. -/
def truncate_earliest (s : List Char) : List Char :=
  match earliestStop s with
  | some m => s.take m
  | none => s

/-- Substring `"DialoGPT"` tested against the model name. -/
def dialoGPTStr : List Char := "DialoGPT".toList

/-- Substring `"TinyLlama"` tested against the model name. -/
def tinyLlamaStr : List Char := "TinyLlama".toList

/-- Substring `"chat"` tested against the lowercased model name. -/
def chatStr : List Char := "chat".toList

/-- Template fragment `"User: "`. -/
def userColon : List Char := "User: ".toList

/-- Template fragment `"\nBot:"`. -/
def nlBot : List Char := "\nBot:".toList

/-- Template fragment `"<|user|>\n"`. -/
def userTag : List Char := "<|user|>\n".toList

/-- Template fragment `"\n<|assistant|>\n"`. -/
def assistantTag : List Char := "\n<|assistant|>\n".toList

/-- Template fragment `"Question: "`. -/
def questionColon : List Char := "Question: ".toList

/-- Template fragment `"\nAnswer:"`. -/
def nlAnswer : List Char := "\nAnswer:".toList

/-- `LocalLLM._format_prompt`: pick a prompt template by substring match on
the model name, first match wins. -/
def format_prompt (model_name prompt : List Char) : List Char :=
  if containsSub dialoGPTStr model_name then
    userColon ++ prompt ++ nlBot
  else if containsSub tinyLlamaStr model_name
      || containsSub chatStr (model_name.map Char.toLower) then
    userTag ++ prompt ++ assistantTag
  else
    questionColon ++ prompt ++ nlAnswer

/-- First phase of `LocalLLM._clean_response`: strip the echoed prompt
(`generated_text[len(original_prompt):].strip()`) when the generated text
starts with it, else strip the whole text. -/
def initial_response (generated_text original_prompt : List Char) : List Char :=
  if original_prompt <+: generated_text then
    stripChars (generated_text.drop original_prompt.length)
  else
    stripChars generated_text

/-- `LocalLLM._clean_response`: prefix phase, then split at each stop token's
first occurrence in the fixed source order, then strip. -/
def clean_response (generated_text original_prompt : List Char) : List Char :=
  stripChars (stopTokens.foldl splitHead (initial_response generated_text original_prompt))

/-- Reference post-processing following the spec's words, with the
implementation's step 1 (the remainder after prefix-stripping is trimmed):
truncate at the earliest-occurring stop token, then trim. -/
def clean_response_spec (generated_text original_prompt : List Char) : List Char :=
  stripChars (truncate_earliest (initial_response generated_text original_prompt))

/-- Step 1 of post-processing exactly as the claim words it: the echoed
prompt is stripped but the remainder is NOT trimmed; only in the
non-matching branch is the whole text trimmed. -/
def initial_response_claim (generated_text original_prompt : List Char) : List Char :=
  if original_prompt <+: generated_text then
    generated_text.drop original_prompt.length
  else
    stripChars generated_text

/-- Post-processing as the claim literally describes it: claim step 1, then
truncation at the earliest-occurring stop token, then a final trim. -/
def clean_response_claim (generated_text original_prompt : List Char) : List Char :=
  stripChars (truncate_earliest (initial_response_claim generated_text original_prompt))

/-- The keyword arguments of the `self.generator(...)` sampling call. -/
structure GenCall where
  input_text : List Char
  max_length : Int
  temperature : ℚ
  top_p : ℚ
  do_sample : Bool
  num_return_sequences : Nat
  truncation : Bool
deriving DecidableEq

/-- Outcome of one sampling call of the external pipeline: the returned
`generated_text`, or a raised exception message. -/
inductive GenOutcome
  | ok (generated_text : List Char)
  | raise (msg : List Char)

/-- A record of one sampling call: the seed in effect and the call made. -/
structure GenInvocation where
  seed : Nat
  call : GenCall
deriving DecidableEq

/-- What `generate_response` produces: the returned text, the lines it
printed to the error stream, and the sampling invocation it performed. -/
structure GenResponse where
  text : List Char
  errLog : List (List Char)
  invocation : GenInvocation

/-- The constant passed to `set_seed` before sampling. -/
def set_seed_value : Nat := 42

/-- Python default of the `top_p` keyword of `generate_response`. -/
def top_p_default : ℚ := 9/10

/-- Message prefix of the synthetic error result of `generate_response`. -/
def genErrHead : List Char := "Error: Could not generate response - ".toList

/-- The substring the spec requires in the synthetic error text. -/
def genErrNeedle : List Char := "Error: Could not generate response".toList

/-- Message prefix `generate_response` logs to the error stream. -/
def genLogHead : List Char := "Error generating response: ".toList

/-- The sampling call built by `generate_response`. -/
def mk_gen_call (model_name prompt : List Char) (max_length : Int)
    (temperature top_p : ℚ) : GenCall :=
  { input_text := format_prompt model_name prompt
    max_length := max_length
    temperature := temperature
    top_p := top_p
    do_sample := true
    num_return_sequences := 1
    truncation := true }

/-- `LocalLLM.generate_response`.  The pipeline is an oracle taking the RNG
seed in effect and the call; `rng0` is the ambient RNG state at entry, which
the body discards by calling `set_seed(42)`.  Exceptions of the sampling
call are caught: they produce a synthetic error text and a log line, never
a propagated exception. -/
def generate_response (model_name prompt : List Char) (max_length : Int)
    (temperature top_p : ℚ) (generator : Nat → GenCall → GenOutcome)
    (rng0 : Nat) : GenResponse :=
  let call := mk_gen_call model_name prompt max_length temperature top_p
  { text :=
      match generator set_seed_value call with
      | .ok generated_text => clean_response generated_text call.input_text
      | .raise e => genErrHead ++ e
    errLog :=
      match generator set_seed_value call with
      | .ok _ => []
      | .raise e => [genLogHead ++ e]
    invocation := ⟨set_seed_value, call⟩ }

/-- The four stages of `LocalLLM.__init__`: device resolution (before the
`try` block), then tokenizer load, model load and pipeline construction
(inside the `try` block). -/
inductive InitStage
  | device
  | tokenizer
  | model
  | pipelineBuild
deriving DecidableEq

/-- Outcome of initialization, as an oracle value: success, or an exception
at one of the four stages. -/
inductive InitOutcome
  | ok
  | raise (stage : InitStage) (msg : List Char)

/-- How `LocalLLM.__init__` terminates: ready, process exit via
`sys.exit` (`SystemExit` is not an `Exception`, so the caller's handler
does not catch it), or an exception propagating to the caller. -/
inductive InitResult
  | ready (stderrLines : List (List Char))
  | exited (code : Nat) (stderrLines : List (List Char))
  | raised (msg : List Char) (stderrLines : List (List Char))

/-- The `"Loading model: {name} on {device}"` stderr line. -/
def loadingMsg (model_name : List Char) (cuda : Bool) : List Char :=
  "Loading model: ".toList ++ model_name ++ " on ".toList
    ++ (if cuda then "cuda".toList else "cpu".toList)

/-- Prefix of the `"Error loading model: {e}"` stderr line. -/
def loadErrHead : List Char := "Error loading model: ".toList

/-- The `"Model loaded successfully!"` stderr line. -/
def loadedMsg : List Char := "Model loaded successfully!".toList

/-- `LocalLLM.__init__`.  An exception during device resolution happens
before the `try` block and propagates; an exception in the three loading
steps is caught, logged to stderr and turned into `sys.exit(1)`. -/
def initLLM (model_name : List Char) (cuda : Bool) (out : InitOutcome) : InitResult :=
  match out with
  | .ok => .ready [loadingMsg model_name cuda, loadedMsg]
  | .raise .device msg => .raised msg []
  | .raise _ msg => .exited 1 [loadingMsg model_name cuda, loadErrHead ++ msg]

/-- One JSON line printed to standard output by `main`. -/
inductive StdoutLine
  | success (text modelName promptText : List Char)
  | error (msg : List Char)
deriving DecidableEq

/-- Observable result of one adapter process invocation. -/
structure ProcResult where
  exitCode : Nat
  stdout : List StdoutLine
  stderrLines : List (List Char)
  genCalls : List GenInvocation

/-- The adapter's command line: positional prompt plus the three optional
flags the argument parser defines. -/
structure CliInput where
  prompt : List Char
  modelFlag : Option (List Char)
  maxLengthFlag : Option Int
  temperatureFlag : Option ℚ

/-- Parsed arguments with argparse defaults applied. -/
structure Args where
  prompt : List Char
  model : List Char
  max_length : Int
  temperature : ℚ

/-- The argparse default model name. -/
def defaultModel : List Char := "microsoft/DialoGPT-medium".toList

/-- Apply the argparse defaults. -/
def parse_args (c : CliInput) : Args :=
  { prompt := c.prompt
    model := c.modelFlag.getD defaultModel
    max_length := c.maxLengthFlag.getD 150
    temperature := c.temperatureFlag.getD (7/10) }

/-- The `main()` entry point of the adapter: parse arguments, initialize,
generate once, print one JSON line.  A propagating initialization exception
is caught by the top-level `except Exception` handler, which prints a JSON
error object to stdout and exits 1; `sys.exit(1)` from `__init__` passes
through that handler untouched. -/
def runMain (c : CliInput) (cuda : Bool) (init : InitOutcome)
    (generator : Nat → GenCall → GenOutcome) (rng0 : Nat) : ProcResult :=
  let args := parse_args c
  match initLLM args.model cuda init with
  | .raised msg errs =>
      { exitCode := 1, stdout := [.error msg], stderrLines := errs, genCalls := [] }
  | .exited code errs =>
      { exitCode := code, stdout := [], stderrLines := errs, genCalls := [] }
  | .ready errs =>
      let r := generate_response args.model args.prompt args.max_length
        args.temperature top_p_default generator rng0
      { exitCode := 0
        stdout := [.success r.text args.model args.prompt]
        stderrLines := errs ++ r.errLog
        genCalls := [r.invocation] }

/-- The fixed ordered package list of `setup_local_llm.py`. -/
def packages : List (List Char) :=
  ["torch>=2.0.0".toList, "transformers>=4.35.0".toList, "accelerate>=0.21.0".toList,
   "sentencepiece>=0.1.99".toList, "protobuf>=3.20.0".toList, "safetensors>=0.3.0".toList,
   "tokenizers>=0.14.0".toList]

/-- The installer's `for package in packages` loop: returns the packages
attempted (in order) and the failed ones (in order), given the outcome
oracle `ok` of `install_package`. -/
def install_loop (ok : List Char → Bool) : List (List Char) → List (List Char) × List (List Char)
  | [] => ([], [])
  | p :: rest =>
      let r := install_loop ok rest
      (p :: r.1, if ok p then r.2 else p :: r.2)

/-- Observable result of one installer run. -/
structure SetupResult where
  attempted : List (List Char)
  failed : List (List Char)
  exitCode : Nat
  importTested : Bool

/-- `setup_local_llm.main()`: version gate, install loop over the fixed
list, failure report with exit 1 before the import test, then the import
test (exit 1 on failure), else exit 0. -/
def setup_main (pyOk : Bool) (ok : List Char → Bool) (importOk : Bool) : SetupResult :=
  if !pyOk then ⟨[], [], 1, false⟩
  else
    let r := install_loop ok packages
    if !r.2.isEmpty then ⟨r.1, r.2, 1, false⟩
    else if !importOk then ⟨r.1, r.2, 1, true⟩
    else ⟨r.1, r.2, 0, true⟩

/-- The spec example's formatted prompt `"Question: Hi\nAnswer:"`. -/
def fpQHi : List Char := "Question: Hi\nAnswer:".toList

/-- The spec example's raw generated text. -/
def genHi : List Char := "Question: Hi\nAnswer: I am fine\nUser: next".toList

/-- The spec example's expected post-processed result. -/
def ansHi : List Char := "I am fine".toList

/-- Generated text whose remainder after the echoed prompt starts with
whitespace containing a `"\n\n"` marker. -/
def gPar : List Char := fpQHi ++ "\n\nParis".toList

/-- Generated text that echoes the formatted prompt twice. -/
def gSelf : List Char := fpQHi ++ fpQHi ++ " ok".toList

/-- Concrete prompt `"hello"`. -/
def helloP : List Char := "hello".toList

/-- Concrete model name containing `"DialoGPT"`. -/
def mDialo : List Char := "microsoft/DialoGPT-medium".toList

/-- Concrete model name containing `"TinyLlama"`. -/
def mTiny : List Char := "TinyLlama/TinyLlama-1.1B-Chat-v1.0".toList

/-- Concrete model name matching no template predicate. -/
def mGpt2 : List Char := "gpt2".toList

/-- Concrete prompt `"Tell me a joke"`. -/
def pJoke : List Char := "Tell me a joke".toList

/-- Concrete prompt `"Hi"`. -/
def pHi : List Char := "Hi".toList

/-- A command line with only the positional prompt. -/
def cliHello : CliInput :=
  { prompt := helloP, modelFlag := none, maxLengthFlag := none, temperatureFlag := none }

/-- A command line passing `--temperature 2`. -/
def cliHotTemp : CliInput :=
  { prompt := helloP, modelFlag := none, maxLengthFlag := none, temperatureFlag := some 2 }

/-- A generator oracle that always returns an empty generation. -/
def genOk : Nat → GenCall → GenOutcome := fun _ _ => .ok []

/-- A concrete exception message. -/
def boomMsg : List Char := "boom".toList

/-- A generator oracle that always raises. -/
def genBoom : Nat → GenCall → GenOutcome := fun _ _ => .raise boomMsg

/-- A concrete device-resolution exception message. -/
def probeMsg : List Char := "CUDA probe failed".toList

/-- The sampling invocation performed by a default run on `cliHello`. -/
def invHello : GenInvocation :=
  ⟨42, mk_gen_call defaultModel helloP 150 (7/10) top_p_default⟩

/-- An installation oracle under which every package fails to install. -/
def okNone : List Char → Bool := fun _ => false


lemma stops_ne_nil : ∀ p ∈ stopTokens, p ≠ [] := by decide

lemma prefIsMid {l₁ l₂ : List Char} (h : l₁ <+: l₂) : l₁ <:+: l₂ :=
  List.IsPrefix.isInfix h

lemma sufIsMid {l₁ l₂ : List Char} (h : l₁ <:+ l₂) : l₁ <:+: l₂ :=
  List.IsSuffix.isInfix h

lemma prefOrPref {l₁ l₂ l₃ : List Char} (h₁ : l₁ <+: l₃) (h₂ : l₂ <+: l₃) :
    l₁ <+: l₂ ∨ l₂ <+: l₁ :=
  List.prefix_or_prefix_of_prefix h₁ h₂

lemma firstOcc_some_occ {pat T : List Char} {i : Nat} (h : firstOcc pat T = some i) :
    pat <+: T.drop i := by
  induction T generalizing i with
  | nil =>
    by_cases hp : pat <+: ([] : List Char)
    · simp only [firstOcc, if_pos hp] at h
      cases h
      simpa using hp
    · simp only [firstOcc, if_neg hp] at h
      exact Option.noConfusion h
  | cons c rest ih =>
    by_cases hp : pat <+: c :: rest
    · simp only [firstOcc, if_pos hp] at h
      cases h
      simpa using hp
    · simp only [firstOcc, if_neg hp, Option.map_eq_some'] at h
      rcases h with ⟨j, hj, rfl⟩
      simpa using ih hj

lemma firstOcc_le {pat T : List Char} {i j : Nat} (h : firstOcc pat T = some i)
    (hj : pat <+: T.drop j) : i ≤ j := by
  induction T generalizing i j with
  | nil =>
    by_cases hp : pat <+: ([] : List Char)
    · simp only [firstOcc, if_pos hp] at h
      cases h
      exact Nat.zero_le j
    · simp only [firstOcc, if_neg hp] at h
      exact Option.noConfusion h
  | cons c rest ih =>
    by_cases hp : pat <+: c :: rest
    · simp only [firstOcc, if_pos hp] at h
      cases h
      exact Nat.zero_le j
    · simp only [firstOcc, if_neg hp, Option.map_eq_some'] at h
      rcases h with ⟨i', hi', rfl⟩
      cases j with
      | zero =>
        rw [List.drop_zero] at hj
        exact absurd hj hp
      | succ j' =>
        rw [List.drop_succ_cons] at hj
        exact Nat.succ_le_succ (ih hi' hj)

lemma firstOcc_none {pat T : List Char} (h : firstOcc pat T = none) (j : Nat) :
    ¬ pat <+: T.drop j := by
  induction T generalizing j with
  | nil =>
    by_cases hp : pat <+: ([] : List Char)
    · simp only [firstOcc, if_pos hp] at h
      exact Option.noConfusion h
    · intro hc
      rw [List.drop_nil] at hc
      exact hp hc
  | cons c rest ih =>
    by_cases hp : pat <+: c :: rest
    · simp only [firstOcc, if_pos hp] at h
      exact Option.noConfusion h
    · simp only [firstOcc, if_neg hp, Option.map_eq_none'] at h
      cases j with
      | zero =>
        rw [List.drop_zero]
        exact hp
      | succ j' =>
        rw [List.drop_succ_cons]
        exact ih h j'

lemma firstOcc_exists_of_occ {pat T : List Char} {j : Nat} (hj : pat <+: T.drop j) :
    ∃ i, firstOcc pat T = some i ∧ i ≤ j := by
  cases h : firstOcc pat T with
  | none => exact absurd hj (firstOcc_none h j)
  | some i => exact ⟨i, rfl, firstOcc_le h hj⟩

lemma firstOcc_eq_some_of {pat T : List Char} {i : Nat} (hocc : pat <+: T.drop i)
    (hmin : ∀ j, pat <+: T.drop j → i ≤ j) : firstOcc pat T = some i := by
  rcases firstOcc_exists_of_occ hocc with ⟨i', hi', hle⟩
  have hge := hmin i' (firstOcc_some_occ hi')
  have he : i' = i := Nat.le_antisymm hle hge
  rwa [he] at hi'

lemma firstOcc_eq_none_of {pat T : List Char} (h : ∀ j, ¬ pat <+: T.drop j) :
    firstOcc pat T = none := by
  cases hf : firstOcc pat T with
  | none => rfl
  | some i => exact absurd (firstOcc_some_occ hf) (h i)

lemma pref_take_iff {pat X : List Char} {n : Nat} :
    pat <+: X.take n ↔ pat <+: X ∧ pat.length ≤ n := by
  constructor
  · intro h
    refine ⟨h.trans <| List.take_prefix n X, ?_⟩
    have h1 := h.length_le
    rw [List.length_take] at h1
    omega
  · rintro ⟨⟨r, rfl⟩, hlen⟩
    rw [List.take_append_eq_append_take, List.take_of_length_le hlen]
    exact List.prefix_append _ _

lemma drop_take_comm (X : List Char) (k j : Nat) :
    (X.take k).drop j = (X.drop j).take (k - j) := by
  by_cases h : j ≤ k
  · have h2 := List.take_drop j (k - j) X
    rw [Nat.add_sub_cancel' h] at h2
    exact h2.symm
  · push_neg at h
    rw [Nat.sub_eq_zero_of_le (Nat.le_of_lt h), List.take_zero, List.drop_eq_nil_iff,
      List.length_take]
    omega

lemma pref_drop_take_iff {pat X : List Char} (hne : pat ≠ []) {k j : Nat} :
    pat <+: (X.take k).drop j ↔ pat <+: X.drop j ∧ j + pat.length ≤ k := by
  rw [drop_take_comm, pref_take_iff]
  have hpos : 0 < pat.length := List.length_pos.mpr hne
  constructor
  · rintro ⟨h1, h2⟩
    exact ⟨h1, by omega⟩
  · rintro ⟨h1, h2⟩
    exact ⟨h1, by omega⟩

lemma occ_fits {pat T : List Char} {i : Nat} (hne : pat ≠ []) (h : pat <+: T.drop i) :
    i + pat.length ≤ T.length := by
  have h1 := h.length_le
  rw [List.length_drop] at h1
  have h2 : T.drop i ≠ [] := by
    intro e
    rw [e, List.prefix_nil] at h
    exact hne h
  rw [ne_eq, List.drop_eq_nil_iff] at h2
  push_neg at h2
  omega

lemma pref_drop {p X : List Char} (h : p <+: X) (d : Nat) : p.drop d <+: X.drop d := by
  obtain ⟨r, rfl⟩ := h
  rw [List.drop_append_eq_append_drop]
  exact List.prefix_append _ _

lemma isSub_of_occ {pat l : List Char} {i : Nat} (h : pat <+: l.drop i) : pat <:+: l := by
  obtain ⟨r, hr⟩ := h
  refine ⟨l.take i, r, ?_⟩
  rw [List.append_assoc, hr, List.take_append_drop]

lemma occ_of_isSub {pat l : List Char} (h : pat <:+: l) : ∃ i, pat <+: l.drop i := by
  obtain ⟨s, t, rfl⟩ := h
  refine ⟨s.length, ?_⟩
  rw [List.append_assoc, List.drop_left]
  exact List.prefix_append _ _

lemma firstOcc_take_of_some {pat T : List Char} {i : Nat} (hne : pat ≠ [])
    (h : firstOcc pat T = some i) (k : Nat) :
    firstOcc pat (T.take k) = if i + pat.length ≤ k then some i else none := by
  by_cases hk : i + pat.length ≤ k
  · rw [if_pos hk]
    apply firstOcc_eq_some_of
    · exact (pref_drop_take_iff hne).mpr ⟨firstOcc_some_occ h, hk⟩
    · intro j hj
      exact firstOcc_le h ((pref_drop_take_iff hne).mp hj).1
  · rw [if_neg hk]
    apply firstOcc_eq_none_of
    intro j hj
    rcases (pref_drop_take_iff hne).mp hj with ⟨h1, h2⟩
    have h3 := firstOcc_le h h1
    omega

lemma firstOcc_take_of_none {pat T : List Char} (hne : pat ≠ [])
    (h : firstOcc pat T = none) (k : Nat) : firstOcc pat (T.take k) = none := by
  apply firstOcc_eq_none_of
  intro j hj
  exact firstOcc_none h j ((pref_drop_take_iff hne).mp hj).1

lemma splitHead_take {pat T : List Char} (hne : pat ≠ []) (k : Nat) :
    splitHead (T.take k) pat = T.take (stepK T k pat) := by
  cases h : firstOcc pat T with
  | none =>
    simp only [splitHead, stepK, firstOcc_take_of_none hne h, h]
  | some i =>
    by_cases hk : i + pat.length ≤ k
    · simp only [splitHead, stepK, firstOcc_take_of_some hne h, h, if_pos hk, List.take_take]
      congr 1
      omega
    · simp only [splitHead, stepK, firstOcc_take_of_some hne h, h, if_neg hk]

lemma foldl_splitHead_take (L : List (List Char)) (hL : ∀ p ∈ L, p ≠ [])
    (T : List Char) (k : Nat) :
    L.foldl splitHead (T.take k) = T.take (L.foldl (stepK T) k) := by
  induction L generalizing k with
  | nil => rfl
  | cons p L ih =>
    rw [List.foldl_cons, List.foldl_cons, splitHead_take (hL p (by simp)) k]
    exact ih (fun q hq => hL q (by simp [hq])) _

lemma fold_eq_take (T : List Char) :
    stopTokens.foldl splitHead T = T.take (stopTokens.foldl (stepK T) T.length) := by
  conv_lhs => rw [← List.take_length T]
  exact foldl_splitHead_take stopTokens stops_ne_nil T T.length

lemma stepK_none {T pat : List Char} {k : Nat} (h : firstOcc pat T = none) :
    stepK T k pat = k := by
  simp [stepK, h]

lemma stepK_cut {T pat : List Char} {k m : Nat} (h : firstOcc pat T = some m)
    (hk : m + pat.length ≤ k) : stepK T k pat = m := by
  simp [stepK, h, if_pos hk]

lemma stepK_keep_of_big {T pat : List Char} {k m : Nat} (h : firstOcc pat T = some m)
    (hk : ¬ m + pat.length ≤ k) : stepK T k pat = k := by
  simp [stepK, h, if_neg hk]

lemma stepK_lb {T pat : List Char} {k b : Nat}
    (hlb : ∀ i, firstOcc pat T = some i → b ≤ i) (hk : b ≤ k) : b ≤ stepK T k pat := by
  cases h : firstOcc pat T with
  | none =>
    rw [stepK_none h]
    exact hk
  | some i =>
    by_cases hik : i + pat.length ≤ k
    · rw [stepK_cut h hik]
      exact hlb i h
    · rw [stepK_keep_of_big h hik]
      exact hk

lemma stepK_keep_near {T pat : List Char} {k M : Nat}
    (hlb : ∀ i, firstOcc pat T = some i → M ≤ i)
    (hlen : 2 ≤ pat.length) (hk : k ≤ M + 1) : stepK T k pat = k := by
  cases h : firstOcc pat T with
  | none => exact stepK_none h
  | some i =>
    have hi := hlb i h
    exact stepK_keep_of_big h (by omega)

lemma foldl_stepK_id {T : List Char} {L : List (List Char)} {k : Nat}
    (h : ∀ p ∈ L, firstOcc p T = none) : L.foldl (stepK T) k = k := by
  induction L generalizing k with
  | nil => rfl
  | cons p L ih =>
    rw [List.foldl_cons, stepK_none (h p (by simp))]
    exact ih (fun q hq => h q (by simp [hq]))

lemma foldl_splitHead_id {L : List (List Char)} {s : List Char}
    (h : ∀ p ∈ L, firstOcc p s = none) : L.foldl splitHead s = s := by
  induction L with
  | nil => rfl
  | cons p L ih =>
    have hs : splitHead s p = s := by simp [splitHead, h p (by simp)]
    rw [List.foldl_cons, hs]
    exact ih (fun q hq => h q (by simp [hq]))

lemma minOpt_eq_none {a b : Option Nat} (h : minOpt a b = none) : a = none ∧ b = none := by
  cases a with
  | none =>
    cases b with
    | none => exact ⟨rfl, rfl⟩
    | some bv => exact Option.noConfusion h
  | some av =>
    cases b with
    | none => exact Option.noConfusion h
    | some bv => exact Option.noConfusion h

lemma foldr_minOpt_none {L : List (Option Nat)} (h : L.foldr minOpt none = none) :
    ∀ o ∈ L, o = none := by
  induction L with
  | nil => simp
  | cons a L ih =>
    rw [List.foldr_cons] at h
    rcases minOpt_eq_none h with ⟨h1, h2⟩
    intro o ho
    rcases List.mem_cons.mp ho with rfl | ho'
    · exact h1
    · exact ih h2 o ho'

lemma foldr_minOpt_some {L : List (Option Nat)} {m : Nat} (h : L.foldr minOpt none = some m) :
    some m ∈ L ∧ ∀ x, some x ∈ L → m ≤ x := by
  induction L generalizing m with
  | nil => exact Option.noConfusion h
  | cons a L ih =>
    rw [List.foldr_cons] at h
    cases a with
    | none =>
      rcases ih h with ⟨h1, h2⟩
      refine ⟨List.mem_cons_of_mem _ h1, ?_⟩
      intro x hx
      rcases List.mem_cons.mp hx with he | hx'
      · exact Option.noConfusion he
      · exact h2 x hx'
    | some av =>
      cases hL : L.foldr minOpt none with
      | none =>
        rw [hL] at h
        simp only [minOpt] at h
        have hm : av = m := Option.some.inj h
        constructor
        · rw [← hm]
          exact List.mem_cons_self _ _
        · intro x hx
          rcases List.mem_cons.mp hx with he | hx'
          · have := Option.some.inj he
            omega
          · exact absurd (foldr_minOpt_none hL _ hx') (by simp)
      | some lv =>
        rw [hL] at h
        simp only [minOpt] at h
        have hm : min av lv = m := Option.some.inj h
        rcases ih hL with ⟨h1, h2⟩
        constructor
        · by_cases hcmp : av ≤ lv
          · have he : m = av := by omega
            rw [he]
            exact List.mem_cons_self _ _
          · have he : m = lv := by omega
            rw [he]
            exact List.mem_cons_of_mem _ h1
        · intro x hx
          rcases List.mem_cons.mp hx with he | hx'
          · have := Option.some.inj he
            omega
          · have := h2 x hx'
            omega

lemma strip_back_done (l : List Char) :
    (stripChars l).rdropWhile Char.isWhitespace = stripChars l := by
  unfold stripChars
  rw [List.rdropWhile_eq_self_iff]
  intro hl hws
  have hA : l.rdropWhile Char.isWhitespace ≠ [] := by
    intro e
    rw [e] at hl
    simp at hl
  obtain ⟨u, hu⟩ := List.dropWhile_suffix (l := l.rdropWhile Char.isWhitespace)
    Char.isWhitespace
  have hB? : ((l.rdropWhile Char.isWhitespace).dropWhile Char.isWhitespace).getLast? =
      (l.rdropWhile Char.isWhitespace).getLast? := by
    conv_rhs => rw [← hu]
    rw [List.getLast?_append_of_ne_nil _ hl]
  have h1 : (l.rdropWhile Char.isWhitespace).getLast? =
      some (((l.rdropWhile Char.isWhitespace).dropWhile Char.isWhitespace).getLast hl) := by
    rw [← hB?]
    exact List.getLast?_eq_getLast _ hl
  have h2 : (l.rdropWhile Char.isWhitespace).getLast? =
      some ((l.rdropWhile Char.isWhitespace).getLast hA) :=
    List.getLast?_eq_getLast _ hA
  have h3 : ((l.rdropWhile Char.isWhitespace).dropWhile Char.isWhitespace).getLast hl =
      (l.rdropWhile Char.isWhitespace).getLast hA := by
    rw [h1] at h2
    exact Option.some.inj h2
  rw [h3] at hws
  exact List.rdropWhile_last_not Char.isWhitespace l hA hws

lemma stripChars_idem (l : List Char) : stripChars (stripChars l) = stripChars l := by
  show ((stripChars l).rdropWhile Char.isWhitespace).dropWhile Char.isWhitespace = stripChars l
  rw [strip_back_done l]
  show ((l.rdropWhile Char.isWhitespace).dropWhile Char.isWhitespace).dropWhile
    Char.isWhitespace = stripChars l
  rw [List.dropWhile_idempotent]
  rfl

lemma strip_concat_ws {X : List Char} {c : Char} (hc : Char.isWhitespace c) :
    stripChars (X ++ [c]) = stripChars X := by
  unfold stripChars
  rw [List.rdropWhile_concat_pos _ _ _ hc]

lemma stripChars_isSub (l : List Char) : stripChars l <:+: l := by
  have h1 : (l.rdropWhile Char.isWhitespace).dropWhile Char.isWhitespace <:+
      l.rdropWhile Char.isWhitespace := List.dropWhile_suffix _
  have h2 : l.rdropWhile Char.isWhitespace <+: l := List.rdropWhile_prefix _ _
  exact (sufIsMid h1).trans (prefIsMid h2)

lemma occ_far {p q X : List Char} {i : Nat} (hq : q <+: X) (hp : p <+: X.drop i)
    (hno : ∀ d, d < q.length → ¬(q.drop d <+: p) ∧ ¬(p <+: q.drop d)) :
    q.length ≤ i := by
  by_contra hlt
  push_neg at hlt
  have hqd : q.drop i <+: X.drop i := pref_drop hq i
  rcases prefOrPref hp hqd with h | h
  · exact (hno i hlt).2 h
  · exact (hno i hlt).1 h

lemma occ_lb_far {pj b T : List Char} {M i : Nat}
    (hb : b <+: T.drop M) (hij : pj <+: T.drop i) (hge : M ≤ i)
    (hno : ∀ d, d < b.length → ¬(b.drop d <+: pj) ∧ ¬(pj <+: b.drop d)) :
    M + b.length ≤ i := by
  have hd : T.drop i = (T.drop M).drop (i - M) := by
    rw [List.drop_drop]
    congr 1
    omega
  rw [hd] at hij
  have := occ_far hb hij hno
  omega

lemma occ_lb_ne {pj b T : List Char} {M i : Nat}
    (hb : b <+: T.drop M) (hij : pj <+: T.drop i) (hge : M ≤ i)
    (hne : ¬(b <+: pj) ∧ ¬(pj <+: b)) :
    M + 1 ≤ i := by
  rcases Nat.eq_or_lt_of_le hge with he | hlt
  · exfalso
    rw [← he] at hij
    rcases prefOrPref hij hb with h | h
    · exact hne.2 h
    · exact hne.1 h
  · omega

lemma final_strip_eq (T : List Char) :
    stripChars (T.take (stopTokens.foldl (stepK T) T.length)) =
    stripChars (truncate_earliest T) := by
  cases hE : earliestStop T with
  | none =>
    have hall : ∀ p ∈ stopTokens, firstOcc p T = none := by
      intro p hp
      exact foldr_minOpt_none hE _ (List.mem_map.mpr ⟨p, hp, rfl⟩)
    rw [foldl_stepK_id hall, List.take_length]
    simp only [truncate_earliest, hE]
  | some M =>
    have hsome := foldr_minOpt_some (L := stopTokens.map (fun pat => firstOcc pat T)) hE
    rcases List.mem_map.mp hsome.1 with ⟨b, hbmem, hb⟩
    have hminAll : ∀ p ∈ stopTokens, ∀ i, firstOcc p T = some i → M ≤ i := by
      intro p hp i hpi
      exact hsome.2 i (List.mem_map.mpr ⟨p, hp, hpi⟩)
    have hm1 := hminAll tokUser (by simp [stopTokens])
    have hm2 := hminAll tokQuestion (by simp [stopTokens])
    have hm3 := hminAll tokBlank (by simp [stopTokens])
    have hm4 := hminAll tokPipeUser (by simp [stopTokens])
    have hm5 := hminAll tokEnd (by simp [stopTokens])
    have hocc : b <+: T.drop M := firstOcc_some_occ hb
    simp only [truncate_earliest, hE]
    simp only [stopTokens, List.foldl_cons, List.foldl_nil]
    simp only [stopTokens, List.mem_cons, List.not_mem_nil, or_false] at hbmem
    rcases hbmem with rfl | rfl | rfl | rfl | rfl
    · -- earliest stop token is "\nUser:", split 1 cuts to M, later splits keep M
      have hfit : M + tokUser.length ≤ T.length := occ_fits (by decide) hocc
      rw [stepK_cut hb hfit]
      rw [stepK_keep_near hm2 (by decide) (by omega)]
      rw [stepK_keep_near hm3 (by decide) (by omega)]
      rw [stepK_keep_near hm4 (by decide) (by omega)]
      rw [stepK_keep_near hm5 (by decide) (by omega)]
    · -- earliest stop token is "\nQuestion:"
      have hfit : M + tokQuestion.length ≤ T.length := occ_fits (by decide) hocc
      have hj1 : ∀ i, firstOcc tokUser T = some i → M + tokQuestion.length ≤ i :=
        fun i hi => occ_lb_far hocc (firstOcc_some_occ hi) (hm1 i hi) (by decide)
      have h1 : M + tokQuestion.length ≤ stepK T T.length tokUser := stepK_lb hj1 hfit
      rw [stepK_cut hb h1]
      rw [stepK_keep_near hm3 (by decide) (by omega)]
      rw [stepK_keep_near hm4 (by decide) (by omega)]
      rw [stepK_keep_near hm5 (by decide) (by omega)]
    · -- earliest stop token is "\n\n"; splits 1 and 2 may cut to M + 1, slicing
      -- the "\n\n" occurrence and leaving one trailing newline for the strip
      have hfit : M + tokBlank.length ≤ T.length := occ_fits (by decide) hocc
      have hlen3 : tokBlank.length = 2 := by decide
      have hj1 : ∀ i, firstOcc tokUser T = some i → M + 1 ≤ i :=
        fun i hi => occ_lb_ne hocc (firstOcc_some_occ hi) (hm1 i hi) (by decide)
      have hj2 : ∀ i, firstOcc tokQuestion T = some i → M + 1 ≤ i :=
        fun i hi => occ_lb_ne hocc (firstOcc_some_occ hi) (hm2 i hi) (by decide)
      have h1 : M + 1 ≤ stepK T T.length tokUser := stepK_lb hj1 (by omega)
      have h2 : M + 1 ≤ stepK T (stepK T T.length tokUser) tokQuestion := stepK_lb hj2 h1
      by_cases hk2 : M + tokBlank.length ≤ stepK T (stepK T T.length tokUser) tokQuestion
      · rw [stepK_cut hb hk2]
        rw [stepK_keep_near hm4 (by decide) (by omega)]
        rw [stepK_keep_near hm5 (by decide) (by omega)]
      · have hk2e : stepK T (stepK T T.length tokUser) tokQuestion = M + 1 := by omega
        rw [hk2e]
        rw [stepK_keep_of_big hb (by omega)]
        rw [stepK_keep_near hm4 (by decide) (by omega)]
        rw [stepK_keep_near hm5 (by decide) (by omega)]
        have hbl : tokBlank = ['\n', '\n'] := by decide
        rw [hbl] at hocc
        obtain ⟨r, hr⟩ := hocc
        have h10 : (T.drop M).take 1 = ['\n'] := by
          rw [← hr]
          rfl
        have htake : T.take (M + 1) = T.take M ++ ['\n'] := by
          rw [List.take_add, h10]
        rw [htake, strip_concat_ws (by decide)]
    · -- earliest stop token is "<|user|>"
      have hfit : M + tokPipeUser.length ≤ T.length := occ_fits (by decide) hocc
      have hj1 : ∀ i, firstOcc tokUser T = some i → M + tokPipeUser.length ≤ i :=
        fun i hi => occ_lb_far hocc (firstOcc_some_occ hi) (hm1 i hi) (by decide)
      have hj2 : ∀ i, firstOcc tokQuestion T = some i → M + tokPipeUser.length ≤ i :=
        fun i hi => occ_lb_far hocc (firstOcc_some_occ hi) (hm2 i hi) (by decide)
      have hj3 : ∀ i, firstOcc tokBlank T = some i → M + tokPipeUser.length ≤ i :=
        fun i hi => occ_lb_far hocc (firstOcc_some_occ hi) (hm3 i hi) (by decide)
      have h1 : M + tokPipeUser.length ≤ stepK T T.length tokUser := stepK_lb hj1 hfit
      have h2 : M + tokPipeUser.length ≤ stepK T (stepK T T.length tokUser) tokQuestion :=
        stepK_lb hj2 h1
      have h3 : M + tokPipeUser.length ≤
          stepK T (stepK T (stepK T T.length tokUser) tokQuestion) tokBlank :=
        stepK_lb hj3 h2
      rw [stepK_cut hb h3]
      rw [stepK_keep_near hm5 (by decide) (by omega)]
    · -- earliest stop token is "<|endoftext|>"
      have hfit : M + tokEnd.length ≤ T.length := occ_fits (by decide) hocc
      have hj1 : ∀ i, firstOcc tokUser T = some i → M + tokEnd.length ≤ i :=
        fun i hi => occ_lb_far hocc (firstOcc_some_occ hi) (hm1 i hi) (by decide)
      have hj2 : ∀ i, firstOcc tokQuestion T = some i → M + tokEnd.length ≤ i :=
        fun i hi => occ_lb_far hocc (firstOcc_some_occ hi) (hm2 i hi) (by decide)
      have hj3 : ∀ i, firstOcc tokBlank T = some i → M + tokEnd.length ≤ i :=
        fun i hi => occ_lb_far hocc (firstOcc_some_occ hi) (hm3 i hi) (by decide)
      have hj4 : ∀ i, firstOcc tokPipeUser T = some i → M + tokEnd.length ≤ i :=
        fun i hi => occ_lb_far hocc (firstOcc_some_occ hi) (hm4 i hi) (by decide)
      have h1 : M + tokEnd.length ≤ stepK T T.length tokUser := stepK_lb hj1 hfit
      have h2 : M + tokEnd.length ≤ stepK T (stepK T T.length tokUser) tokQuestion :=
        stepK_lb hj2 h1
      have h3 : M + tokEnd.length ≤
          stepK T (stepK T (stepK T T.length tokUser) tokQuestion) tokBlank :=
        stepK_lb hj3 h2
      have h4 : M + tokEnd.length ≤
          stepK T (stepK T (stepK T (stepK T T.length tokUser) tokQuestion) tokBlank)
            tokPipeUser :=
        stepK_lb hj4 h3
      rw [stepK_cut hb h4]

lemma clean_eq_trunc (g p : List Char) :
    clean_response g p = stripChars (truncate_earliest (initial_response g p)) := by
  unfold clean_response
  rw [fold_eq_take, final_strip_eq]

lemma truncate_no_occ (R : List Char) :
    ∀ pat ∈ stopTokens, firstOcc pat (truncate_earliest R) = none := by
  intro pat hpat
  have hne : pat ≠ [] := stops_ne_nil pat hpat
  have hpos : 0 < pat.length := List.length_pos.mpr hne
  cases hE : earliestStop R with
  | none =>
    simp only [truncate_earliest, hE]
    exact foldr_minOpt_none hE _ (List.mem_map.mpr ⟨pat, hpat, rfl⟩)
  | some M =>
    simp only [truncate_earliest, hE]
    apply firstOcc_eq_none_of
    intro j hj
    rcases (pref_drop_take_iff hne).mp hj with ⟨h1, h2⟩
    rcases firstOcc_exists_of_occ h1 with ⟨i0, hi0, hle⟩
    have hmin := (foldr_minOpt_some hE).2 i0 (List.mem_map.mpr ⟨pat, hpat, hi0⟩)
    omega

lemma clean_no_occ (g p : List Char) :
    ∀ pat ∈ stopTokens, firstOcc pat (clean_response g p) = none := by
  intro pat hpat
  apply firstOcc_eq_none_of
  intro j hj
  have hmid1 : pat <:+: clean_response g p := isSub_of_occ hj
  have hmid2 : clean_response g p <:+: truncate_earliest (initial_response g p) := by
    rw [clean_eq_trunc]
    exact stripChars_isSub _
  rcases occ_of_isSub (hmid1.trans hmid2) with ⟨i, hi⟩
  exact absurd hi (firstOcc_none (truncate_no_occ _ pat hpat) i)

lemma clean_strip_fixed (g p : List Char) :
    stripChars (clean_response g p) = clean_response g p := by
  unfold clean_response
  exact stripChars_idem _

lemma install_loop_fst (ok : List Char → Bool) (L : List (List Char)) :
    (install_loop ok L).1 = L := by
  induction L with
  | nil => rfl
  | cons p L ih => simp [install_loop, ih]

lemma install_loop_snd (ok : List Char → Bool) (L : List (List Char)) :
    (install_loop ok L).2 = L.filter (fun p => !(ok p)) := by
  induction L with
  | nil => rfl
  | cons p L ih =>
    simp only [install_loop, List.filter_cons]
    by_cases h : ok p
    · simp [h, ih]
    · simp [h, ih]

/-- C1: prompt formatting is a pure function of model name and raw prompt
selecting exactly one template by substring match, first match wins: a model
name containing "DialoGPT" yields `"User: {p}\nBot:"`; else one containing
"TinyLlama" or whose lowercased form contains "chat" yields
`"<|user|>\n{p}\n<|assistant|>\n"`; else the result is
`"Question: {p}\nAnswer:"`. -/
theorem C1_format_prompt_cases (m p : List Char) :
    (containsSub dialoGPTStr m = true →
      format_prompt m p = userColon ++ p ++ nlBot) ∧
    (containsSub dialoGPTStr m = false →
      (containsSub tinyLlamaStr m || containsSub chatStr (m.map Char.toLower)) = true →
      format_prompt m p = userTag ++ p ++ assistantTag) ∧
    (containsSub dialoGPTStr m = false →
      (containsSub tinyLlamaStr m || containsSub chatStr (m.map Char.toLower)) = false →
      format_prompt m p = questionColon ++ p ++ nlAnswer) := by
  refine ⟨fun h1 => ?_, fun h1 h2 => ?_, fun h1 h2 => ?_⟩
  · simp [format_prompt, h1]
  · simp [format_prompt, h1, h2]
  · simp [format_prompt, h1, h2]

/-- C1 witness: the three template cases at the spec's concrete examples. -/
theorem C1_format_prompt_cases_witness :
    format_prompt mDialo pJoke = userColon ++ pJoke ++ nlBot ∧
    format_prompt mTiny pHi = userTag ++ pHi ++ assistantTag ∧
    format_prompt mGpt2 pHi = questionColon ++ pHi ++ nlAnswer :=
  ⟨(C1_format_prompt_cases mDialo pJoke).1 (by decide),
   (C1_format_prompt_cases mTiny pHi).2.1 (by decide) (by decide),
   (C1_format_prompt_cases mGpt2 pHi).2.2 (by decide) (by decide)⟩

/-- C2 counterexample: post-processing as the claim words it (no trim of the
remainder after stripping the echoed prompt) differs from the
implementation: for generated text `"Question: Hi\nAnswer:\n\nParis"` and
formatted prompt `"Question: Hi\nAnswer:"`, the implementation returns
`"Paris"` while the claim's reference pipeline, whose untrimmed remainder
`"\n\nParis"` begins with the marker `"\n\n"`, returns `""`. -/
theorem C2_counterexample :
    clean_response gPar fpQHi ≠ clean_response_claim gPar fpQHi := by decide

/-- C2 (amended): with the implementation's step 1 (the remainder after
prefix-stripping is also trimmed), the fixed-order sequential splitting at
each marker's first occurrence equals truncation at the earliest-occurring
marker followed by a final trim; and the spec's example yields exactly
`"I am fine"`. -/
theorem C2_seq_eq_earliest :
    (∀ g p, clean_response g p = clean_response_spec g p) ∧
    clean_response genHi fpQHi = ansHi := by
  constructor
  · intro g p
    rw [clean_eq_trunc]
    rfl
  · decide

/-- C3 counterexample: post-processing is not idempotent: for generated text
equal to the formatted prompt repeated twice followed by `" ok"`, the first
pass returns `"Question: Hi\nAnswer: ok"`, which itself starts with the
formatted prompt, so a second pass strips it again and returns `"ok"`. -/
theorem C3_counterexample :
    clean_response (clean_response gSelf fpQHi) fpQHi ≠ clean_response gSelf fpQHi := by
  decide

/-- C3 (amended): post-processing is idempotent whenever its output does not
itself start with the formatted prompt: the output is already trimmed and
contains no marker, so a second pass changes nothing. -/
theorem C3_idempotent_unless_echo (g p : List Char)
    (h : ¬ p <+: clean_response g p) :
    clean_response (clean_response g p) p = clean_response g p := by
  have hfix : stripChars (clean_response g p) = clean_response g p := clean_strip_fixed g p
  have hinit : initial_response (clean_response g p) p = clean_response g p := by
    unfold initial_response
    rw [if_neg h, hfix]
  show stripChars (stopTokens.foldl splitHead (initial_response (clean_response g p) p)) =
    clean_response g p
  rw [hinit, foldl_splitHead_id (clean_no_occ g p), hfix]

/-- C3 witness: idempotence at a concrete non-echoing input. -/
theorem C3_idempotent_unless_echo_witness :
    clean_response (clean_response helloP fpQHi) fpQHi = clean_response helloP fpQHi :=
  C3_idempotent_unless_echo helloP fpQHi (by decide)

/-- C9: for every generated text and formatted prompt, the post-processed
output contains no occurrence of any of the five stop-token substrings, and
has no leading or trailing whitespace (stripping it is a no-op). -/
theorem C9_output_clean (g p : List Char) :
    (∀ pat ∈ stopTokens, containsSub pat (clean_response g p) = false) ∧
    stripChars (clean_response g p) = clean_response g p := by
  refine ⟨?_, clean_strip_fixed g p⟩
  intro pat hpat
  unfold containsSub
  rw [clean_no_occ g p pat hpat]
  rfl

/-- C9 witness: the spec example's output contains no `"\nUser:"` marker. -/
theorem C9_output_clean_witness :
    containsSub tokUser (clean_response genHi fpQHi) = false :=
  (C9_output_clean genHi fpQHi).1 tokUser (by decide)

/-- C4: when the generation call raises after successful initialization, the
exception is caught and logged to the error stream, the process exits with
code 0, and it emits a JSON success object whose text field contains the
substring "Error: Could not generate response". -/
theorem C4_generation_error_caught (c : CliInput) (cuda : Bool)
    (generator : Nat → GenCall → GenOutcome) (rng0 : Nat) (e : List Char)
    (h : generator set_seed_value
        (mk_gen_call (parse_args c).model (parse_args c).prompt
          (parse_args c).max_length (parse_args c).temperature top_p_default) =
        GenOutcome.raise e) :
    (runMain c cuda InitOutcome.ok generator rng0).exitCode = 0 ∧
    (runMain c cuda InitOutcome.ok generator rng0).stdout =
      [StdoutLine.success (genErrHead ++ e) (parse_args c).model (parse_args c).prompt] ∧
    genErrNeedle <:+: (genErrHead ++ e) ∧
    (genLogHead ++ e) ∈ (runMain c cuda InitOutcome.ok generator rng0).stderrLines := by
  refine ⟨rfl, ?_, ?_, ?_⟩
  · simp only [runMain, initLLM, generate_response, h]
  · exact prefIsMid ((by decide : genErrNeedle <+: genErrHead).trans (List.prefix_append _ _))
  · simp only [runMain, initLLM, generate_response, h]
    simp

/-- C4 witness: a concrete run with an always-raising generator. -/
theorem C4_generation_error_caught_witness :
    (runMain cliHello false InitOutcome.ok genBoom 0).exitCode = 0 ∧
    (runMain cliHello false InitOutcome.ok genBoom 0).stdout =
      [StdoutLine.success (genErrHead ++ boomMsg) (parse_args cliHello).model
        (parse_args cliHello).prompt] ∧
    genErrNeedle <:+: (genErrHead ++ boomMsg) ∧
    (genLogHead ++ boomMsg) ∈ (runMain cliHello false InitOutcome.ok genBoom 0).stderrLines :=
  C4_generation_error_caught cliHello false genBoom 0 boomMsg rfl

/-- C5 counterexample: an exception during device resolution (which the code
performs before the `try` block of `__init__`) terminates with exit code 1
but writes nothing to the error stream: it surfaces as a JSON error object
on standard output instead, refuting the claim that every initialization
exception is reported to the error stream. -/
theorem C5_counterexample :
    (runMain cliHello false (InitOutcome.raise InitStage.device probeMsg) genOk 0).exitCode
      = 1 ∧
    (runMain cliHello false (InitOutcome.raise InitStage.device probeMsg) genOk 0).stderrLines
      = [] ∧
    (runMain cliHello false (InitOutcome.raise InitStage.device probeMsg) genOk 0).stdout
      = [StdoutLine.error probeMsg] :=
  ⟨rfl, rfl, rfl⟩

/-- C5 (amended): every initialization exception terminates the process with
exit code 1, standard output carries no text/model/prompt success payload,
and no generation call (hence no retry and no fallback model) is attempted;
exceptions of the tokenizer-load, model-load and pipeline-construction
stages are additionally reported to the error stream, while an exception of
the device-resolution stage is reported as a JSON error object on standard
output instead. -/
theorem C5_init_error_exits (c : CliInput) (cuda : Bool) (stage : InitStage)
    (msg : List Char) (generator : Nat → GenCall → GenOutcome) (rng0 : Nat) :
    (runMain c cuda (InitOutcome.raise stage msg) generator rng0).exitCode = 1 ∧
    (∀ t m p, StdoutLine.success t m p ∉
      (runMain c cuda (InitOutcome.raise stage msg) generator rng0).stdout) ∧
    (stage ≠ InitStage.device →
      (loadErrHead ++ msg) ∈
        (runMain c cuda (InitOutcome.raise stage msg) generator rng0).stderrLines) ∧
    (runMain c cuda (InitOutcome.raise stage msg) generator rng0).genCalls = [] := by
  cases stage <;> simp [runMain, initLLM]

/-- C5 witness: a concrete tokenizer-load failure is logged to the error
stream and exits 1. -/
theorem C5_init_error_exits_witness :
    (runMain cliHello false (InitOutcome.raise InitStage.tokenizer boomMsg) genOk 0).exitCode
      = 1 ∧
    (loadErrHead ++ boomMsg) ∈
      (runMain cliHello false (InitOutcome.raise InitStage.tokenizer boomMsg) genOk
        0).stderrLines :=
  ⟨(C5_init_error_exits cliHello false InitStage.tokenizer boomMsg genOk 0).1,
   (C5_init_error_exits cliHello false InitStage.tokenizer boomMsg genOk 0).2.2.1
     (by decide)⟩

lemma invHello_mem :
    invHello ∈ (runMain cliHello false InitOutcome.ok genOk 0).genCalls := by
  simp only [runMain, initLLM, generate_response, List.mem_singleton, invHello]
  rfl

/-- C6 counterexample: the invocation `--temperature 2` performs a generation
call whose temperature is 2, which does not lie in (0, 1]: the CLI passes
the flag through with no validation. -/
theorem C6_counterexample :
    ((runMain cliHotTemp false InitOutcome.ok genOk 0).genCalls.map
      (fun inv => inv.call.temperature)) = [2] ∧
    ¬((0 : ℚ) < 2 ∧ (2 : ℚ) ≤ 1) := by
  refine ⟨rfl, ?_⟩
  intro hc
  have h2 := hc.2
  norm_num at h2

/-- C6 (amended): when the --temperature flag is absent, every generation
call of the invocation uses the default temperature 0.7, which lies in
(0, 1]; a supplied flag value is passed through unvalidated. -/
theorem C6_default_temperature (c : CliInput) (cuda : Bool) (init : InitOutcome)
    (generator : Nat → GenCall → GenOutcome) (rng0 : Nat)
    (h : c.temperatureFlag = none) :
    ∀ inv ∈ (runMain c cuda init generator rng0).genCalls,
      inv.call.temperature = 7/10 ∧
      0 < inv.call.temperature ∧ inv.call.temperature ≤ 1 := by
  intro inv hinv
  cases init with
  | raise stage msg =>
    cases stage <;> simp [runMain, initLLM] at hinv
  | ok =>
    simp only [runMain, initLLM, generate_response, List.mem_singleton] at hinv
    subst hinv
    refine ⟨?_, ?_, ?_⟩
    · show c.temperatureFlag.getD (7/10) = 7/10
      rw [h, Option.getD_none]
    · show (0 : ℚ) < c.temperatureFlag.getD (7/10)
      rw [h, Option.getD_none]
      norm_num
    · show c.temperatureFlag.getD (7/10) ≤ 1
      rw [h, Option.getD_none]
      norm_num

/-- C6 witness: the default run's single generation call has temperature
0.7, inside (0, 1]. -/
theorem C6_default_temperature_witness :
    invHello.call.temperature = 7/10 ∧
    0 < invHello.call.temperature ∧ invHello.call.temperature ≤ 1 :=
  C6_default_temperature cliHello false InitOutcome.ok genOk 0 rfl invHello invHello_mem

/-- C7: the pseudo-random seed of every sampling call is the constant 42
(`set_seed(42)` discards the ambient RNG state), so two invocations with
identical prompt, model name, max_length and temperature against the same
loaded model (the same generator oracle) but arbitrary differing ambient
RNG states produce identical results. -/
theorem C7_fixed_seed_deterministic (c : CliInput) (cuda : Bool) (init : InitOutcome)
    (generator : Nat → GenCall → GenOutcome) (r1 r2 : Nat) :
    (∀ inv ∈ (runMain c cuda init generator r1).genCalls, inv.seed = 42) ∧
    runMain c cuda init generator r1 = runMain c cuda init generator r2 := by
  constructor
  · intro inv hinv
    cases init with
    | raise stage msg =>
      cases stage <;> simp [runMain, initLLM] at hinv
    | ok =>
      simp only [runMain, initLLM, generate_response, List.mem_singleton] at hinv
      subst hinv
      rfl
  · rfl

/-- C7 witness: seed 42 and two-run equality at a concrete input with two
different ambient RNG states. -/
theorem C7_fixed_seed_deterministic_witness :
    invHello.seed = 42 ∧
    runMain cliHello false InitOutcome.ok genOk 0 =
      runMain cliHello false InitOutcome.ok genOk 99 :=
  ⟨(C7_fixed_seed_deterministic cliHello false InitOutcome.ok genOk 0 99).1 invHello
    invHello_mem,
   (C7_fixed_seed_deterministic cliHello false InitOutcome.ok genOk 0 99).2⟩

/-- C10: the top_p value of every generation call of every command-line
invocation is exactly 0.9: the argument parser defines no flag for it and
main never overrides the Python default of `generate_response`. -/
theorem C10_top_p_fixed (c : CliInput) (cuda : Bool) (init : InitOutcome)
    (generator : Nat → GenCall → GenOutcome) (rng0 : Nat) :
    ∀ inv ∈ (runMain c cuda init generator rng0).genCalls,
      inv.call.top_p = 9/10 := by
  intro inv hinv
  cases init with
  | raise stage msg =>
    cases stage <;> simp [runMain, initLLM] at hinv
  | ok =>
    simp only [runMain, initLLM, generate_response, List.mem_singleton] at hinv
    subst hinv
    rfl

/-- C10 witness: the default run's single generation call has top_p 0.9. -/
theorem C10_top_p_fixed_witness : invHello.call.top_p = 9/10 :=
  C10_top_p_fixed cliHello false InitOutcome.ok genOk 0 invHello invHello_mem

/-- C8: the installer attempts every entry of its fixed ordered package list
in list order, continuing past individual failures (the attempted list is
the whole package list whatever the install outcomes); the reported failed
list is exactly the failing entries in order, and if any package failed the
run exits with status 1 before attempting the import test. -/
theorem C8_installer_continues (ok : List Char → Bool) (importOk : Bool) :
    (setup_main true ok importOk).attempted = packages ∧
    (setup_main true ok importOk).failed = packages.filter (fun p => !(ok p)) ∧
    ((setup_main true ok importOk).failed ≠ [] →
      (setup_main true ok importOk).exitCode = 1 ∧
      (setup_main true ok importOk).importTested = false) := by
  have h1 := install_loop_fst ok packages
  have h2 := install_loop_snd ok packages
  simp only [setup_main]
  rw [if_neg (show ¬ ((!true) = true) by decide)]
  by_cases hf : (install_loop ok packages).2.isEmpty
  · have hnil : (install_loop ok packages).2 = [] := by
      rwa [List.isEmpty_iff] at hf
    have hc1 : ¬ ((!(install_loop ok packages).2.isEmpty) = true) := by
      rw [hf]
      decide
    rw [if_neg hc1]
    by_cases hi : importOk
    · have hc2 : ¬ ((!importOk) = true) := by
        rw [hi]
        decide
      rw [if_neg hc2]
      exact ⟨h1, h2, fun hne => absurd hnil hne⟩
    · have hc2 : (!importOk) = true := by
        cases he : importOk
        · rfl
        · exact absurd he hi
      rw [if_pos hc2]
      exact ⟨h1, h2, fun hne => absurd hnil hne⟩
  · have hc1 : (!(install_loop ok packages).2.isEmpty) = true := by
      cases he : (install_loop ok packages).2.isEmpty
      · rfl
      · exact absurd he hf
    rw [if_pos hc1]
    exact ⟨h1, h2, fun _ => ⟨rfl, rfl⟩⟩

/-- C8 witness: when every installation fails, all seven packages are still
attempted, all are reported failed, and the run exits 1 without the import
test. -/
theorem C8_installer_continues_witness :
    (setup_main true okNone true).attempted = packages ∧
    (setup_main true okNone true).failed ≠ [] ∧
    (setup_main true okNone true).exitCode = 1 ∧
    (setup_main true okNone true).importTested = false :=
  ⟨(C8_installer_continues okNone true).1, by decide,
   (C8_installer_continues okNone true).2.2 (by decide)⟩
